import Mathlib

/-!
Shallow embedding of the core of `src/mfai/pytorch/models/archesweather.py`:
`EarthSpecificBlock`, `EarthSpecificLayer` and `CondBasicLayer`.

A tensor is modelled as a shape (list of dimension extents) together with a
total assignment of values to flat, row-major indices — the same layout a
contiguous torch tensor uses.  Values are taken in the exact ring `ℤ`:
floating point is not modelled (claims about numerical equality are read at
the idealized-arithmetic level), and every value-level operation performed by
the orchestration code of `archesweather.py` itself is an addition or a
(broadcast) multiplication; normalisation, attention and MLP arithmetic live
inside the abstract submodules, which are arbitrary tensor functions.  `view`/`reshape` change only the
shape (with `-1` inference from the element count), `rearrange` is an index
permutation, `roll`, padding and slicing are index translations.

Learned submodules that live outside this file — `LayerNorm`, the
`EarthAttention3D` windowed attention, `MLP`, `DropPath`, the axial-attention
pair and `generate_3d_attention_mask` (the latter three imported from
`pangu.py`, which is not part of the analysed sources) — are abstract
function parameters gathered in `BlockPrims`.  The file embeds the
orchestration code of `archesweather.py` itself: normalisation/modulation
order, window partitioning, cyclic shifts, padding and cropping, the
residual combinations, the roll alternation of the layer and the
conditional-embedding wrapper.
-/

namespace ArchesWeather

/-- Row-major multi-index of a flat index `i` for the given shape. -/
def unflattenIdx : List ℕ → ℕ → List ℕ
  | [], _ => []
  | s :: rest, i => (i / rest.prod) % s :: unflattenIdx rest (i % rest.prod)

/-- Row-major flat index of a multi-index for the given shape. -/
def flattenIdx : List ℕ → List ℕ → ℕ
  | _ :: srest, j :: jrest => j * srest.prod + flattenIdx srest jrest
  | _, _ => 0

/-- A contiguous tensor: a shape and a total row-major data assignment. -/
structure Tensor where
  shape : List ℕ
  data : ℕ → ℤ

/-- The all-`q` tensor of a given shape. -/
def constTensor (shape : List ℕ) (q : ℤ) : Tensor :=
  { shape := shape, data := fun _ => q }

/-- Placeholder tensor (used only as a `getD` default). -/
def Tensor.default : Tensor :=
  { shape := [], data := fun _ => 0 }

/-- `torch.Tensor.reshape` / `view`: the data is untouched; a `none` entry
plays the role of `-1` and is inferred from the element count. -/
def Tensor.reshape (t : Tensor) (spec : List (Option ℕ)) : Tensor :=
  let numel := t.shape.prod
  let known := (spec.filterMap id).prod
  { shape := spec.map fun o => o.getD (numel / known), data := t.data }

/-- `einops.rearrange` for a pure axis permutation: output axis `k` is input
axis `perm[k]`. -/
def Tensor.permute (t : Tensor) (perm : List ℕ) : Tensor :=
  let shape' := perm.map fun j => t.shape.getD j 0
  { shape := shape',
    data := fun i =>
      let m := unflattenIdx shape' i
      let mi := (List.range t.shape.length).map fun j => m.getD (perm.indexOf j) 0
      t.data (flattenIdx t.shape mi) }

/-- `torch.Tensor.roll` along the given dims (cyclic shift). -/
def Tensor.roll (t : Tensor) (shifts : List ℤ) (dims : List ℕ) : Tensor :=
  { shape := t.shape,
    data := fun i =>
      let m := unflattenIdx t.shape i
      let m' := (shifts.zip dims).foldl
        (fun mm sd =>
          let sz : ℤ := (t.shape.getD sd.2 0 : ℕ)
          mm.set sd.2 (((mm.getD sd.2 0 : ℤ) - sd.1) % sz).toNat)
        m
      t.data (flattenIdx t.shape m') }

/-- Pointwise sum (used for the residual additions; operands always share a
shape at the call sites in `archesweather.py`). -/
def tadd (a b : Tensor) : Tensor :=
  { shape := a.shape, data := fun i => a.data i + b.data i }

/-- `x * (1 + scale[:, None, :]) + shift[:, None, :]` for a `(B, N, C)` tensor
`x` and `(B, C)` tensors `scale`, `shift` (lines 120 and 266-268). -/
def modulate (scale shift x : Tensor) : Tensor :=
  { shape := x.shape,
    data := fun i =>
      let m := unflattenIdx x.shape i
      x.data i * (1 + scale.data (flattenIdx scale.shape [m.getD 0 0, m.getD 2 0]))
        + shift.data (flattenIdx shift.shape [m.getD 0 0, m.getD 2 0]) }

/-- `gate[:, None, :] * x` for a `(B, N, C)` tensor `x` and a `(B, C)` gate
(lines 265 and 269). -/
def gateMul (gate x : Tensor) : Tensor :=
  { shape := x.shape,
    data := fun i =>
      let m := unflattenIdx x.shape i
      gate.data (flattenIdx gate.shape [m.getD 0 0, m.getD 2 0]) * x.data i }

/-- `torch.chunk(t, k, dim=1)` for a 2-D tensor `(B, L)`. -/
def chunkDim1 (k : ℕ) (t : Tensor) : List Tensor :=
  let B := t.shape.getD 0 0
  let L := t.shape.getD 1 0
  let c := (L + k - 1) / k
  let n := if c = 0 then 0 else (L + c - 1) / c
  (List.range n).map fun i =>
    let lo := i * c
    let hi := min ((i + 1) * c) L
    { shape := [B, hi - lo],
      data := fun idx =>
        let m := unflattenIdx [B, hi - lo] idx
        t.data (flattenIdx t.shape [m.getD 0 0, lo + m.getD 1 0]) }

/-! ### Padding (spec-modelled collaborator `CustomPad3d`) -/

/-- The six-field padding descriptor `(left, right, top, bottom, front, back)`
unpacked from `self.pad3D.padding` at lines 220-227 of `archesweather.py`. -/
structure Padding3d where
  left : ℕ
  right : ℕ
  top : ℕ
  bottom : ℕ
  front : ℕ
  back : ℕ

/-- Minimal amount making `n + padAmount n w` a multiple of `w`. -/
def padAmount (n w : ℕ) : ℕ := (w - n % w) % w

/-- Modelled from the spec: `CustomPad3d` from `pangu.py` is not part of the
analysed sources.  Per the spec's padding descriptor, the padding amount per
axis is the minimal value making the padded length a multiple of the window
length, split as evenly as possible between the two sides.  `sizes` is the
`(Z, H, W)` volume extent, `ws` the window geometry. -/
def mkPadding (sizes ws : List ℕ) : Padding3d :=
  let tz := padAmount (sizes.getD 0 0) (ws.getD 0 1)
  let th := padAmount (sizes.getD 1 0) (ws.getD 1 1)
  let tw := padAmount (sizes.getD 2 0) (ws.getD 2 1)
  { left := tw / 2, right := tw - tw / 2,
    top := th / 2, bottom := th - th / 2,
    front := tz / 2, back := tz - tz / 2 }

/-- Zero-padding of a `(B, C, Z, H, W)` tensor by a padding descriptor
(`self.pad3D(x)`, line 129). -/
def Tensor.pad3d (t : Tensor) (p : Padding3d) : Tensor :=
  let s0 := t.shape.getD 0 0
  let s1 := t.shape.getD 1 0
  let s2 := t.shape.getD 2 0
  let s3 := t.shape.getD 3 0
  let s4 := t.shape.getD 4 0
  let shape' := [s0, s1, s2 + p.front + p.back, s3 + p.top + p.bottom,
    s4 + p.left + p.right]
  { shape := shape',
    data := fun i =>
      let m := unflattenIdx shape' i
      let z := m.getD 2 0
      let h := m.getD 3 0
      let w := m.getD 4 0
      if p.front ≤ z ∧ z < p.front + s2 ∧ p.top ≤ h ∧ h < p.top + s3 ∧
          p.left ≤ w ∧ w < p.left + s4 then
        t.data (flattenIdx t.shape [m.getD 0 0, m.getD 1 0, z - p.front, h - p.top,
          w - p.left])
      else 0 }

/-- Cropping of a `(B, Z, H, W, C)` tensor, exactly the slice
`x[:, front : Z - back, top : H - bottom, left : W - right, :]`
of lines 228-234. -/
def Tensor.crop3 (t : Tensor) (p : Padding3d) : Tensor :=
  let shape' := [t.shape.getD 0 0, t.shape.getD 1 0 - p.back - p.front,
    t.shape.getD 2 0 - p.bottom - p.top, t.shape.getD 3 0 - p.right - p.left,
    t.shape.getD 4 0]
  { shape := shape',
    data := fun i =>
      let m := unflattenIdx shape' i
      t.data (flattenIdx t.shape [m.getD 0 0, m.getD 1 0 + p.front,
        m.getD 2 0 + p.top, m.getD 3 0 + p.left, m.getD 4 0]) }

/-! ### The block -/

/-- The learned / external submodules of a block, abstract here:
`norm1`/`norm2` (torch `LayerNorm`), the `EarthAttention3D` collaborator of
`pangu.py` applied to `(windows, mask, batch_size)`, `drop_path`
(timm `DropPath`, one fixed realisation of its per-sample randomness),
`mlp` (the `MLP` collaborator of `pangu.py`), the optional
`(axis_pos_embed, axial_attn)` pair, and `maskGen` — modelled from the spec:
`generate_3d_attention_mask` of `pangu.py` is not part of the analysed
sources; its output is only ever fed to the (equally abstract) attention. -/
structure BlockPrims where
  norm1 : Tensor → Tensor
  norm2 : Tensor → Tensor
  attention : Tensor → Option Tensor → ℕ → Tensor
  drop_path : Tensor → Tensor
  mlp : Tensor → Tensor
  axialOps : Option ((Tensor → Tensor) × (Tensor → Tensor))
  maskGen : Tensor → List ℕ → List ℕ → Bool → Tensor

/-- Modelled from the spec: `torch.utils.checkpoint.checkpoint` together with
the `EarthAttention3D` collaborator of `pangu.py` (not part of the analysed
sources).  Checkpointing is recompute-only — the spec requires bit-identical
results — so it invokes the same attention computation; the two extra
positional arguments `padded_z`, `padded_h` of the checkpointed call at
lines 182-190 are modelled, per the spec's description of the attention, as
not influencing the result. -/
def checkpointCall (f : Tensor → Option Tensor → ℕ → Tensor)
    (x : Tensor) (mask : Option Tensor) (batch_size _pz _ph : ℕ) : Tensor :=
  f x mask batch_size

/-- The construction-time state of `EarthSpecificBlock`.  The window geometry
is a list, as a Python tuple of any length can be passed at runtime. -/
structure EarthSpecificBlock where
  window_size : List ℕ
  shift_size : List ℕ
  checkpoint_activation : Bool
  lam : Bool
  pad : Padding3d
  prims : BlockPrims

/-- The window validation of line 76:
`all([w_s == 1 or w_s % 2 == 0 for w_s in window_size])`. -/
def windowOk (ws : List ℕ) : Bool :=
  ws.all fun w_s => w_s == 1 || w_s % 2 == 0

/-- Line 80: `tuple(w_size // 2 + w_size % 2 for w_size in window_size)`. -/
def shiftSizeOf (ws : List ℕ) : List ℕ :=
  ws.map fun w_size => w_size / 2 + w_size % 2

def windowSizeErrMsg : String := "Window size must be 1 or divisible by 2"

def shiftSizeErrMsg : String := "Shift size must be 3D"

def chunkErrMsg : String := "cond_embed does not split into six chunks"

/-- Last three entries of `data_size` (`data_size[-3:]`, line 85). -/
def lastThree (l : List ℕ) : List ℕ := l.drop (l.length - 3)

/-- `EarthSpecificBlock.__init__` (lines 57-102).  The learned submodules are
the abstract `prims`; `axial_attn` controls whether the axial pair exists
(the `hasattr` flag of lines 92-102). -/
def mkEarthSpecificBlock (data_size window_size : List ℕ)
    (checkpoint_activation lam axial_attn : Bool) (prims : BlockPrims) :
    Except String EarthSpecificBlock :=
  if windowOk window_size then
    .ok { window_size := window_size,
          shift_size := shiftSizeOf window_size,
          checkpoint_activation := checkpoint_activation,
          lam := lam,
          pad := mkPadding (lastThree data_size) window_size,
          prims := { prims with
            axialOps := if axial_attn then prims.axialOps else none } }
  else .error windowSizeErrMsg

/-- The window partitioning of lines 155-178 (the spec's `WindowPartitioner`
forward direction): an 8-way reshape splitting each padded spatial dimension
into (number of windows, window length), the rearrange
`"b z c1 h c2 w c3 c4 -> b z h w c1 c2 c3 c4"`, and the flattening into
`(batch*num_windows, window_volume, channels)`. -/
def windowPartition (w0 w1 w2 batch_size padded_z padded_h padded_w
    channels : ℕ) (x : Tensor) : Tensor :=
  let x_window := x.reshape [some batch_size, some (padded_z / w0), some w0,
    some (padded_h / w1), some w1, some (padded_w / w2), some w2, none]
  let x_window := x_window.permute [0, 1, 3, 5, 2, 4, 6, 7]
  x_window.reshape [none, some (w0 * w1 * w2), some channels]

/-- The inverse reorganisation of lines 194-210 (the spec's
`WindowPartitioner` inverse direction): the 8-way reshape, the rearrange
`"b z h w c1 c2 c3 c4 -> b z c1 h c2 w c3 c4"`, and the reshape back to the
padded `(batch, Z, H, W, channels)` volume. -/
def windowReverse (w0 w1 w2 batch_size padded_z padded_h padded_w : ℕ)
    (x_window : Tensor) : Tensor :=
  let x := x_window.reshape [some batch_size, some (padded_z / w0),
    some (padded_h / w1), some (padded_w / w2), some w0, some w1, some w2, none]
  let x := x.permute [0, 1, 4, 2, 5, 3, 6, 7]
  x.reshape [some batch_size, some padded_z, some padded_h, some padded_w, none]

/-- Lines 123-234 of `EarthSpecificBlock.forward`: reshape to the volumetric
form, pad, optionally roll and build the mask, partition into windows, run the
(possibly checkpointed) window attention, undo the windowing, the roll and the
padding.  `t` is the normalised (and, when conditioned, modulated) token
tensor.  The shift-length validation of lines 146-147 is performed by the
caller (`forward`) before this stage runs; the stage itself is pure, so the
order relative to the roll of lines 138-141 is observationally irrelevant. -/
def EarthSpecificBlock.attnStage (blk : EarthSpecificBlock) (t : Tensor)
    (embedding_shape : List ℕ) (roll : Bool) : Tensor :=
  -- line 124: x = x.view(embedding_shape)
  let x := t.reshape (embedding_shape.map some)
  -- line 128: rearrange "b z h w c -> b c z h w"
  let x := x.permute [0, 4, 1, 2, 3]
  -- line 129: x = self.pad3D(x)
  let x := x.pad3d blk.pad
  -- line 132: rearrange "b c z h w -> b z h w c"
  let x := x.permute [0, 2, 3, 4, 1]
  -- line 134
  let batch_size := x.shape.getD 0 0
  let padded_z := x.shape.getD 1 0
  let padded_h := x.shape.getD 2 0
  let padded_w := x.shape.getD 3 0
  let channels := x.shape.getD 4 0
  let s0 := blk.shift_size.getD 0 0
  let s1 := blk.shift_size.getD 1 0
  let s2 := blk.shift_size.getD 2 0
  -- lines 136-153: roll and mask generation, else no mask
  let x := if roll then x.roll [-(s0 : ℤ), -(s1 : ℤ), -(s2 : ℤ)] [1, 2, 3] else x
  let mask : Option Tensor :=
    if roll then some (blk.prims.maskGen x blk.window_size blk.shift_size blk.lam)
    else none
  let w0 := blk.window_size.getD 0 0
  let w1 := blk.window_size.getD 1 0
  let w2 := blk.window_size.getD 2 0
  -- lines 155-178
  let x_window := windowPartition w0 w1 w2 batch_size padded_z padded_h
    padded_w channels x
  -- lines 181-192
  let x_window :=
    if blk.checkpoint_activation then
      checkpointCall blk.prims.attention x_window mask batch_size padded_z padded_h
    else blk.prims.attention x_window mask batch_size
  -- lines 194-210
  let x := windowReverse w0 w1 w2 batch_size padded_z padded_h padded_w x_window
  -- lines 212-217
  let x := if roll then x.roll [(s0 : ℤ), (s1 : ℤ), (s2 : ℤ)] [1, 2, 3] else x
  -- lines 219-234
  x.crop3 blk.pad

/-- Lines 241-254: the axial-attention branch.  The two einops rearranges
`"b (pl lat lon) c -> (b lat lon) pl c"` and back are decomposed into
reshape/permute/reshape. -/
def axialStage (pe aa : Tensor → Tensor) (b pl lat lon ch : ℕ)
    (xf : Tensor) : Tensor :=
  let t := xf.reshape [some b, some pl, some lat, some lon, some ch]
  let t := t.permute [0, 2, 3, 1, 4]
  let t := t.reshape [some (b * lat * lon), some pl, some ch]
  let t := aa (pe t)
  let t := t.reshape [some b, some lat, some lon, some pl, some ch]
  let t := t.permute [0, 3, 1, 2, 4]
  t.reshape [some b, none, some ch]

/-- The pure computation of `EarthSpecificBlock.forward` (lines 111-270 minus
its two raises): normalisation, the optional pre-attention modulation from the
already-chunked `mods`, the attention stage, flattening, the optional axial
branch, and the residual combination.  (In the source the chunking of
`cond_embed` and the shift-length check are interleaved with these steps; all
the steps are pure, so hoisting the two raise sites into `forward` below is
observationally identical.) -/
def EarthSpecificBlock.forwardBody (blk : EarthSpecificBlock) (x : Tensor)
    (mods : Option (List Tensor)) (embedding_shape : List ℕ) (roll : Bool) :
    Tensor :=
  -- lines 111-113
  let shortcut := x
  let xn := blk.prims.norm1 x
  -- line 120
  let x1 := match mods with
    | none => xn
    | some cs => modulate (cs.getD 1 Tensor.default) (cs.getD 0 Tensor.default) xn
  -- lines 123-234
  let xc := blk.attnStage x1 embedding_shape roll
  -- line 237
  let bsz := xc.shape.getD 0 0
  let pl := xc.shape.getD 1 0
  let lat := xc.shape.getD 2 0
  let lon := xc.shape.getD 3 0
  let ch := xc.shape.getD 4 0
  -- line 238
  let xf := xc.reshape [some bsz, none, some ch]
  -- lines 241-254
  let x2opt := blk.prims.axialOps.map fun fns =>
    axialStage fns.1 fns.2 bsz pl lat lon ch xf
  match mods with
  | none =>
    -- lines 257-261
    let r1 := tadd shortcut (blk.prims.drop_path xf)
    let r2 := match x2opt with
      | some x2 => tadd r1 (blk.prims.drop_path x2)
      | none => r1
    tadd r2 (blk.prims.drop_path (blk.prims.mlp (blk.prims.norm2 r2)))
  | some cs =>
    -- lines 262-269
    let y0 := match x2opt with
      | some x2 => tadd xf (blk.prims.drop_path x2)
      | none => xf
    let y1 := tadd shortcut
      (gateMul (cs.getD 2 Tensor.default) (blk.prims.drop_path y0))
    let mlp_input := modulate (cs.getD 4 Tensor.default)
      (cs.getD 3 Tensor.default) (blk.prims.norm2 y1)
    tadd y1 (blk.prims.drop_path
      (gateMul (cs.getD 5 Tensor.default) (blk.prims.mlp mlp_input)))

/-- `EarthSpecificBlock.forward` (lines 104-270).  The only explicit raises of
the source are embedded as `Except.error`: the shift-length check of lines
146-147 (inside the `if roll:` branch, before mask generation) and the Python
`ValueError` that unpacking `cond_embed.chunk(6, dim=1)` into six names at
lines 116-119 would raise if the chunking did not yield six pieces; implicit
shape errors of the underlying tensor ops are out of scope (spec section 7
treats them as delegated to the backend). -/
def EarthSpecificBlock.forward (blk : EarthSpecificBlock) (x : Tensor)
    (embedding_shape : List ℕ) (cond_embed : Option Tensor) (roll : Bool) :
    Except String Tensor :=
  -- lines 116-119
  let modsE : Except String (Option (List Tensor)) :=
    match cond_embed with
    | none => .ok none
    | some ce =>
      let cs := chunkDim1 6 ce
      if cs.length == 6 then .ok (some cs) else .error chunkErrMsg
  modsE.bind fun mods =>
    -- lines 146-147
    if roll && !(blk.shift_size.length == 3) then .error shiftSizeErrMsg
    else .ok (blk.forwardBody x mods embedding_shape roll)

/-! ### The layer and its conditional wrapper -/

/-- `EarthSpecificLayer`: an ordered sequence of blocks (lines 274-317). -/
structure EarthSpecificLayer where
  blocks : List EarthSpecificBlock

/-- The enumerated loop of `EarthSpecificLayer.forward` (lines 325-330):
`i` is the running block index; even positions run with `roll=False`,
odd positions with `roll=True`. -/
def EarthSpecificLayer.forwardFrom (embedding_shape : List ℕ)
    (cond_embed : Option Tensor) :
    ℕ → List EarthSpecificBlock → Tensor → Except String Tensor
  | _, [], x => .ok x
  | i, block :: rest, x =>
    (if i % 2 == 0 then block.forward x embedding_shape cond_embed false
     else block.forward x embedding_shape cond_embed true).bind
      (EarthSpecificLayer.forwardFrom embedding_shape cond_embed (i + 1) rest)

/-- `EarthSpecificLayer.forward` (lines 319-331). -/
def EarthSpecificLayer.forward (L : EarthSpecificLayer) (x : Tensor)
    (embedding_shape : List ℕ) (cond_embed : Option Tensor) :
    Except String Tensor :=
  EarthSpecificLayer.forwardFrom embedding_shape cond_embed 0 L.blocks x

/-- The block-construction loop of `EarthSpecificLayer.__init__`
(lines 300-317); `primsOf i` carries block `i`'s learned submodules
(its own weights and drop-path ratio). -/
def mkBlocksAux (data_size window_size : List ℕ) (ck lam ax : Bool)
    (primsOf : ℕ → BlockPrims) : ℕ → ℕ → Except String (List EarthSpecificBlock)
  | _, 0 => .ok []
  | i, n + 1 =>
    (mkEarthSpecificBlock data_size window_size ck lam ax (primsOf i)).bind
      fun b => (mkBlocksAux data_size window_size ck lam ax primsOf (i + 1) n).map
        fun bs => b :: bs

/-- `EarthSpecificLayer.__init__` (lines 285-317). -/
def mkEarthSpecificLayer (depth : ℕ) (data_size window_size : List ℕ)
    (ck lam ax : Bool) (primsOf : ℕ → BlockPrims) :
    Except String EarthSpecificLayer :=
  (mkBlocksAux data_size window_size ck lam ax primsOf 0 depth).map
    EarthSpecificLayer.mk

/-- `CondBasicLayer` (lines 491-542): the layer plus the
`nn.Sequential(nn.SiLU(), nn.Linear(cond_dim, 6 * dim))` modulation head.
The SiLU activation is torch library code, abstract here; the linear weights
are explicit so the zero initialisation of lines 529-530 is visible. -/
structure CondBasicLayer extends EarthSpecificLayer where
  silu : ℤ → ℤ
  adaLN_weight : List (List ℤ)
  adaLN_bias : List ℤ

/-- `self.adaLN_modulation(cond_emb)` (line 539): elementwise SiLU followed by
the linear map, for a `(B, cond_dim)` input, giving `(B, 6 * dim)`. -/
def adaLNApply (L : CondBasicLayer) (ce : Tensor) : Tensor :=
  let B := ce.shape.getD 0 0
  let K := ce.shape.getD 1 0
  { shape := [B, L.adaLN_weight.length],
    data := fun i =>
      let m := unflattenIdx [B, L.adaLN_weight.length] i
      let b := m.getD 0 0
      let j := m.getD 1 0
      ((List.range K).map fun k =>
        (L.adaLN_weight.getD j []).getD k 0 * L.silu (ce.data (flattenIdx ce.shape [b, k]))).sum
        + L.adaLN_bias.getD j 0 }

/-- `CondBasicLayer.__init__` (lines 498-530): builds the block stack and
zero-initialises the modulation projection's weight and bias. -/
def mkCondBasicLayer (depth : ℕ) (data_size : List ℕ) (dim cond_dim : ℕ)
    (window_size : List ℕ) (ck lam ax : Bool) (primsOf : ℕ → BlockPrims)
    (silu : ℤ → ℤ) : Except String CondBasicLayer :=
  (mkEarthSpecificLayer depth data_size window_size ck lam ax primsOf).map
    fun base =>
      { toEarthSpecificLayer := base,
        silu := silu,
        adaLN_weight := List.replicate (6 * dim) (List.replicate cond_dim 0),
        adaLN_bias := List.replicate (6 * dim) 0 }

/-- `CondBasicLayer.forward` (lines 532-542). -/
def CondBasicLayer.forward (L : CondBasicLayer) (x : Tensor)
    (embedding_shape : List ℕ) (cond_emb : Option Tensor) :
    Except String Tensor :=
  match cond_emb with
  | some ce => L.toEarthSpecificLayer.forward x embedding_shape (some (adaLNApply L ce))
  | none => L.toEarthSpecificLayer.forward x embedding_shape none

/-! ### Claim-side decompositions and concrete instances -/

/-- The block with its `checkpoint_activation` flag replaced (all other state,
including weights, identical). -/
def EarthSpecificBlock.withCheckpoint (blk : EarthSpecificBlock) (b : Bool) :
    EarthSpecificBlock :=
  { blk with checkpoint_activation := b }

/-- The roll flags a layer hands to its blocks, starting at running index
`k`: position `i` receives `roll = (k + i) % 2 ≠ 0`. -/
def rollFlagsFrom : ℕ → ℕ → List Bool
  | _, 0 => []
  | k, n + 1 => (if k % 2 == 0 then false else true) :: rollFlagsFrom (k + 1) n

/-- The roll flags of a layer with `n` blocks (starting index 0). -/
def rollFlags (n : ℕ) : List Bool := rollFlagsFrom 0 n

/-- Feeding tokens through a list of blocks with an explicit roll flag per
block. -/
def forwardWithFlags (embedding_shape : List ℕ) (cond_embed : Option Tensor) :
    List (EarthSpecificBlock × Bool) → Tensor → Except String Tensor
  | [], x => .ok x
  | bf :: rest, x =>
    (bf.1.forward x embedding_shape cond_embed bf.2).bind
      (forwardWithFlags embedding_shape cond_embed rest)

/-- `window_attn[+axial_attn]`: the windowed-attention output, with the
(drop-pathed) axial-attention output added when the axial pair exists —
the attention contribution entering the conditioned residual combination. -/
def condAttnBranch (blk : EarthSpecificBlock) (xm : Tensor) (es : List ℕ)
    (roll : Bool) : Tensor :=
  let xc := blk.attnStage xm es roll
  let bsz := xc.shape.getD 0 0
  let pl := xc.shape.getD 1 0
  let lat := xc.shape.getD 2 0
  let lon := xc.shape.getD 3 0
  let ch := xc.shape.getD 4 0
  let xf := xc.reshape [some bsz, none, some ch]
  match blk.prims.axialOps with
  | some fns =>
    tadd xf (blk.prims.drop_path (axialStage fns.1 fns.2 bsz pl lat lon ch xf))
  | none => xf

/-- The conditioned residual combination as the spec states it:
`out = shortcut + gate_attn * drop_path(window_attn[+axial_attn])`, the FFN
input `norm(out) * (1 + scale_ffn) + shift_ffn`, and the final
`out + drop_path(gate_ffn * FFN(ffn_input))`. -/
def condResidualSpec (blk : EarthSpecificBlock) (x : Tensor) (es : List ℕ)
    (ce : Tensor) (roll : Bool) : Tensor :=
  let cs := chunkDim1 6 ce
  let shift_attn := cs.getD 0 Tensor.default
  let scale_attn := cs.getD 1 Tensor.default
  let gate_attn := cs.getD 2 Tensor.default
  let shift_ffn := cs.getD 3 Tensor.default
  let scale_ffn := cs.getD 4 Tensor.default
  let gate_ffn := cs.getD 5 Tensor.default
  let xm := modulate scale_attn shift_attn (blk.prims.norm1 x)
  let out := tadd x
    (gateMul gate_attn (blk.prims.drop_path (condAttnBranch blk xm es roll)))
  let ffn_input := modulate scale_ffn shift_ffn (blk.prims.norm2 out)
  tadd out (blk.prims.drop_path (gateMul gate_ffn (blk.prims.mlp ffn_input)))

/-- Trivial instantiation of the abstract submodules (identity maps), used in
concrete witnesses: the theorems quantify over arbitrary submodules. -/
def trivPrims : BlockPrims :=
  { norm1 := id, norm2 := id, attention := fun t _ _ => t, drop_path := id,
    mlp := id, axialOps := none, maskGen := fun t _ _ _ => t }

/-- Data of a forward result at a flat index (`none` when the call raised). -/
def outAt (r : Except String Tensor) (i : ℕ) : Option ℤ :=
  match r with
  | .ok t => some (t.data i)
  | .error _ => none

/-- A concrete block: window geometry `(1, 2, 2)` on a `(1, 2, 2)` volume. -/
def cBlockSmall : EarthSpecificBlock :=
  { window_size := [1, 2, 2], shift_size := [1, 1, 1],
    checkpoint_activation := false, lam := false,
    pad := mkPadding [1, 2, 2] [1, 2, 2], prims := trivPrims }

/-- A freshly constructed depth-1 `CondBasicLayer` over `cBlockSmall`
(`dim = 1`, `cond_dim = 2`; the modulation projection is zero-initialised
exactly as lines 529-530 do). -/
def cCondLayer : CondBasicLayer :=
  { blocks := [cBlockSmall], silu := id,
    adaLN_weight := List.replicate 6 (List.replicate 2 0),
    adaLN_bias := List.replicate 6 0 }

/-- Concrete token tensor: four tokens of one channel, all ones. -/
def x1c : Tensor := constTensor [1, 4, 1] 1

/-- Concrete conditioning vector. -/
def cv1 : Tensor := constTensor [1, 2] 5

/-- A concrete block with the claimed window geometry `(2, 6, 12)` on the
claimed `(8, 36, 72)` embedding volume. -/
def cBlock7 : EarthSpecificBlock :=
  { window_size := [2, 6, 12], shift_size := [1, 3, 6],
    checkpoint_activation := false, lam := false,
    pad := mkPadding [8, 36, 72] [2, 6, 12], prims := trivPrims }

/-- A depth-2 layer of such blocks. -/
def cLayer7 : EarthSpecificLayer := { blocks := [cBlock7, cBlock7] }

/-! ### Helper lemmas -/

theorem Tensor.ext' {a b : Tensor} (h1 : a.shape = b.shape)
    (h2 : ∀ i, a.data i = b.data i) : a = b := by
  cases a
  cases b
  simp only [Tensor.mk.injEq]
  exact ⟨h1, funext h2⟩

theorem windowOk_iff (ws : List ℕ) :
    windowOk ws = true ↔ ∀ w ∈ ws, w = 1 ∨ w % 2 = 0 := by
  simp [windowOk, List.all_eq_true, Nat.beq_eq_true_eq]

theorem shiftSizeOf_getD (ws : List ℕ) :
    ∀ i, (shiftSizeOf ws).getD i 0 = (ws.getD i 0 + 1) / 2 := by
  induction ws with
  | nil => intro i; simp [shiftSizeOf]
  | cons a l ih =>
    intro i
    cases i with
    | zero => simp only [shiftSizeOf, List.map_cons, List.getD_cons_zero]; omega
    | succ n => simpa [shiftSizeOf] using ih n

theorem mkEarthSpecificBlock_ok {ds ws : List ℕ} {ck lam ax : Bool}
    {p : BlockPrims} {blk : EarthSpecificBlock}
    (h : mkEarthSpecificBlock ds ws ck lam ax p = .ok blk) :
    blk.window_size = ws ∧ blk.shift_size = shiftSizeOf ws ∧
      blk.pad = mkPadding (lastThree ds) ws ∧ windowOk ws = true := by
  unfold mkEarthSpecificBlock at h
  by_cases hw : windowOk ws
  · rw [if_pos hw] at h
    cases h
    exact ⟨rfl, rfl, rfl, hw⟩
  · rw [if_neg hw] at h
    cases h

/-! ### C5 -/

/-- C5: constructing an `EarthSpecificBlock` raises the window configuration
error exactly when some component of the window geometry is neither 1 nor
even; in particular `window_size = (3, 6, 12)` is rejected at construction. -/
theorem c5_window_validation :
    (∀ (ds ws : List ℕ) (ck lam ax : Bool) (p : BlockPrims),
        mkEarthSpecificBlock ds ws ck lam ax p = .error windowSizeErrMsg ↔
          ¬ (∀ w ∈ ws, w = 1 ∨ w % 2 = 0)) ∧
    mkEarthSpecificBlock [1, 2, 2] [3, 6, 12] false false false trivPrims =
      .error windowSizeErrMsg := by
  refine ⟨fun ds ws ck lam ax p => ?_, rfl⟩
  rw [← windowOk_iff]
  unfold mkEarthSpecificBlock
  cases h : windowOk ws <;> simp [h]

/-! ### C6 -/

/-- C6: for every window geometry accepted at construction, the derived shift
geometry satisfies `shift = ceil(window / 2)` on each axis (out-of-range axes
read as 0 on both sides). -/
theorem c6_shift_ceil (ds ws : List ℕ) (ck lam ax : Bool) (p : BlockPrims)
    (blk : EarthSpecificBlock)
    (hmk : mkEarthSpecificBlock ds ws ck lam ax p = .ok blk) :
    ∀ i, blk.shift_size.getD i 0 = (blk.window_size.getD i 0 + 1) / 2 := by
  obtain ⟨hw, hs, -, -⟩ := mkEarthSpecificBlock_ok hmk
  intro i
  rw [hw, hs]
  exact shiftSizeOf_getD ws i

theorem c6_shift_ceil_witness :
    cBlockSmall.shift_size.getD 1 0 = (cBlockSmall.window_size.getD 1 0 + 1) / 2 :=
  c6_shift_ceil [1, 2, 2] [1, 2, 2] false false false trivPrims cBlockSmall rfl 1

/-! ### C9 -/

/-- C9: with no conditioning vector, `CondBasicLayer.forward` returns exactly
what `EarthSpecificLayer.forward` returns on the same blocks, input and
embedding shape — the wrapper adds no behaviour when conditioning is absent. -/
theorem c9_wrapper_none (L : CondBasicLayer) (x : Tensor) (es : List ℕ) :
    L.forward x es none = L.toEarthSpecificLayer.forward x es none := rfl

/-! ### C2 (counterexample part) -/

/-- C2 fails as stated: a window geometry of four all-even components is
accepted at construction (the parity check does not inspect the length), and
the first rolled forward pass then raises the shift-geometry configuration
error — so that error is not raised at construction time and is deferred to
forward-pass time. -/
theorem c2_counterexample :
    (mkEarthSpecificBlock [2, 2, 2] [2, 2, 2, 2] false false false
        trivPrims).isOk = true ∧
    (mkEarthSpecificBlock [2, 2, 2] [2, 2, 2, 2] false false false
        trivPrims).bind
        (fun blk => blk.forward (constTensor [1, 8, 1] 1) [1, 2, 2, 2, 1] none
          true) =
      .error shiftSizeErrMsg :=
  ⟨rfl, rfl⟩

/-! ### C1 (counterexample part) -/

/-- C1 fails as stated: for a freshly constructed `CondBasicLayer` (modulation
projection zero-initialised), supplying a conditioning vector does not
reproduce the unconditioned output.  The zero gates null both residual
branches, so the conditioned output is the unchanged input (value 1 at index
0 here) while the unconditioned output accumulates the attention and FFN
contributions (value 4 at index 0 here). -/
theorem c1_counterexample :
    cCondLayer.forward x1c [1, 1, 2, 2, 1] (some cv1) ≠
      cCondLayer.forward x1c [1, 1, 2, 2, 1] none := by
  intro h
  have h1 : outAt (cCondLayer.forward x1c [1, 1, 2, 2, 1] (some cv1)) 0 =
      some 1 := by decide
  have h2 : outAt (cCondLayer.forward x1c [1, 1, 2, 2, 1] none) 0 =
      some 4 := by decide
  rw [h, h2] at h1
  exact absurd (Option.some.inj h1) (by decide)

/-! ### C8 -/

/-- C8: for every block state, input, conditioning and roll flag, the forward
output with `checkpoint_activation` enabled equals the forward output with it
disabled — the two execution paths invoke the identical computation
(checkpointing is recompute-only; see `checkpointCall` for the modelling of
the collaborator call). -/
theorem c8_checkpoint_equiv (blk : EarthSpecificBlock) (x : Tensor)
    (es : List ℕ) (ce : Option Tensor) (roll : Bool) :
    (blk.withCheckpoint true).forward x es ce roll =
      (blk.withCheckpoint false).forward x es ce roll := rfl

/-! ### C4 -/

theorem forwardFrom_eq_withFlags (es : List ℕ) (ce : Option Tensor) :
    ∀ (bs : List EarthSpecificBlock) (k : ℕ) (x : Tensor),
      EarthSpecificLayer.forwardFrom es ce k bs x =
        forwardWithFlags es ce (bs.zip (rollFlagsFrom k bs.length)) x := by
  intro bs
  induction bs with
  | nil => intro k x; rfl
  | cons b rest ih =>
    intro k x
    show (if k % 2 == 0 then b.forward x es ce false else b.forward x es ce true).bind
        (EarthSpecificLayer.forwardFrom es ce (k + 1) rest) =
      (b.forward x es ce (if k % 2 == 0 then false else true)).bind
        (forwardWithFlags es ce (rest.zip (rollFlagsFrom (k + 1) rest.length)))
    have harg : (if k % 2 == 0 then b.forward x es ce false
        else b.forward x es ce true) =
        b.forward x es ce (if k % 2 == 0 then false else true) := by
      cases k % 2 == 0 <;> rfl
    rw [harg]
    exact congrArg _ (funext fun t => ih (k + 1) t)

theorem rollFlagsFrom_getD :
    ∀ (n k i : ℕ), i < n →
      (rollFlagsFrom k n).getD i false =
        (if (k + i) % 2 == 0 then false else true) := by
  intro n
  induction n with
  | zero => intro k i h; omega
  | succ m ih =>
    intro k i h
    cases i with
    | zero => simp [rollFlagsFrom]
    | succ j =>
      have := ih (k + 1) j (by omega)
      simpa [rollFlagsFrom, Nat.add_assoc, Nat.add_comm 1 j] using this

/-- C4: `EarthSpecificLayer.forward` feeds its blocks with an alternating roll
schedule, and block `i` (0-indexed) receives `roll = true` iff `i` is odd. -/
theorem c4_roll_alternation (L : EarthSpecificLayer) (x : Tensor)
    (es : List ℕ) (ce : Option Tensor) :
    L.forward x es ce =
      forwardWithFlags es ce (L.blocks.zip (rollFlags L.blocks.length)) x ∧
    ∀ i, i < L.blocks.length →
      ((rollFlags L.blocks.length).getD i false = true ↔ Odd i) := by
  constructor
  · exact forwardFrom_eq_withFlags es ce L.blocks 0 x
  · intro i hi
    rw [rollFlags, rollFlagsFrom_getD L.blocks.length 0 i hi]
    rcases Nat.even_or_odd i with he | ho
    · simp [Nat.even_iff.mp he, Nat.odd_iff]
    · simp [Nat.odd_iff.mp ho, ho]

theorem c4_roll_alternation_witness :
    (cLayer7.forward x1c [1, 8, 36, 72, 96] none =
      forwardWithFlags [1, 8, 36, 72, 96] none
        (cLayer7.blocks.zip (rollFlags cLayer7.blocks.length)) x1c) ∧
    ((rollFlags cLayer7.blocks.length).getD 1 false = true ↔ Odd 1) := by
  have h := c4_roll_alternation cLayer7 x1c [1, 8, 36, 72, 96] none
  exact ⟨h.1, h.2 1 (by decide)⟩

/-! ### C2 (amended part) and C10 -/

theorem forward_no_shift_err (blk : EarthSpecificBlock)
    (hs : blk.shift_size.length = 3) (x : Tensor) (es : List ℕ)
    (ce : Option Tensor) (roll : Bool) :
    blk.forward x es ce roll ≠ .error shiftSizeErrMsg := by
  unfold EarthSpecificBlock.forward
  simp only [hs]
  cases ce with
  | none => simp [Except.bind]
  | some c =>
    by_cases h6 : ((chunkDim1 6 c).length == 6) = true
    · simp [h6, Except.bind]
    · simp [h6, Except.bind, chunkErrMsg, shiftSizeErrMsg]

/-- C2 (amended): the window-parity configuration error is raised at
construction, but the shift-geometry length check lives in the forward pass
(before mask generation); what holds is that for every block successfully
constructed from a 3-component window geometry, no forward call can raise the
shift-geometry error.  (With a longer all-even window geometry the error is
deferred to forward-pass time — see the counterexample.) -/
theorem c2_construction_vs_forward (ds ws : List ℕ) (ck lam ax : Bool)
    (p : BlockPrims) (blk : EarthSpecificBlock) (h3 : ws.length = 3)
    (hmk : mkEarthSpecificBlock ds ws ck lam ax p = .ok blk)
    (x : Tensor) (es : List ℕ) (ce : Option Tensor) (roll : Bool) :
    blk.forward x es ce roll ≠ .error shiftSizeErrMsg := by
  obtain ⟨-, hs, -, -⟩ := mkEarthSpecificBlock_ok hmk
  refine forward_no_shift_err blk ?_ x es ce roll
  rw [hs, shiftSizeOf, List.length_map, h3]

theorem c2_construction_vs_forward_witness :
    cBlockSmall.forward x1c [1, 1, 2, 2, 1] none true ≠
      .error shiftSizeErrMsg :=
  c2_construction_vs_forward [1, 2, 2] [1, 2, 2] false false false trivPrims
    cBlockSmall (by decide) rfl x1c [1, 1, 2, 2, 1] none true

/-- C10: for every `EarthSpecificBlock` constructed from a 3-component window
geometry, the derived shift geometry has exactly 3 components, so the
`len(self.shift_size) != 3` branch of the forward pass is unreachable: no
forward call with `roll = True` can raise the shift-geometry error. -/
theorem c10_shift_check_unreachable (ds ws : List ℕ) (ck lam ax : Bool)
    (p : BlockPrims) (blk : EarthSpecificBlock)
    (hmk : mkEarthSpecificBlock ds ws ck lam ax p = .ok blk)
    (h3 : blk.window_size.length = 3) :
    blk.shift_size.length = 3 ∧
    ∀ (x : Tensor) (es : List ℕ) (ce : Option Tensor),
      blk.forward x es ce true ≠ .error shiftSizeErrMsg := by
  obtain ⟨hw, hs, -, -⟩ := mkEarthSpecificBlock_ok hmk
  have hlen : blk.shift_size.length = 3 := by
    rw [hs, shiftSizeOf, List.length_map, ← hw, h3]
  exact ⟨hlen, fun x es ce => forward_no_shift_err blk hlen x es ce true⟩

theorem c10_shift_check_unreachable_witness :
    cBlockSmall.shift_size.length = 3 ∧
    cBlockSmall.forward (constTensor [1, 4, 1] 2) [1, 1, 2, 2, 1] none true ≠
      .error shiftSizeErrMsg := by
  have h := c10_shift_check_unreachable [1, 2, 2] [1, 2, 2] false false false
    trivPrims cBlockSmall rfl (by decide)
  exact ⟨h.1, h.2 (constTensor [1, 4, 1] 2) [1, 1, 2, 2, 1] none⟩

/-! ### C3 -/

/-- C3: for every conditioned forward call (axial attention enabled or not),
the residual combination computes
`out = shortcut + gate_attn * drop_path(window_attn[+axial_attn])`, the FFN
input is `norm(out) * (1 + scale_ffn) + shift_ffn`, and the final output is
`out + drop_path(gate_ffn * FFN(ffn_input))` (see `condResidualSpec`). -/
theorem c3_cond_residual (blk : EarthSpecificBlock) (x : Tensor) (es : List ℕ)
    (ce : Tensor) (roll : Bool) (h6 : (chunkDim1 6 ce).length = 6)
    (hs : blk.shift_size.length = 3) :
    blk.forward x es (some ce) roll =
      .ok (condResidualSpec blk x es ce roll) := by
  unfold EarthSpecificBlock.forward
  simp only [h6, hs]
  cases hax : blk.prims.axialOps <;>
    simp [Except.bind, EarthSpecificBlock.forwardBody, condResidualSpec,
      condAttnBranch, hax]

/-- Concrete conditioning vector of width 6 (`dim = 1`). -/
def cv6 : Tensor := constTensor [1, 6] 3

theorem c3_cond_residual_witness :
    (chunkDim1 6 cv6).length = 6 ∧
    cBlockSmall.forward x1c [1, 1, 2, 2, 1] (some cv6) false =
      .ok (condResidualSpec cBlockSmall x1c [1, 1, 2, 2, 1] cv6 false) :=
  ⟨by decide,
    c3_cond_residual cBlockSmall x1c [1, 1, 2, 2, 1] cv6 false (by decide)
      (by decide)⟩

/-! ### C1 (amended part): the zero-initialised conditioned pass is the
identity -/

theorem range_map_getD {α : Type} (f : ℕ → α) (d : α) (n j : ℕ) :
    ((List.range n).map f).getD j d = if j < n then f j else d := by
  simp only [List.getD_eq_getElem?_getD, List.getElem?_map]
  split
  · next h => simp [List.getElem?_range h]
  · next h =>
    rw [List.getElem?_eq_none (by simpa using h)]
    rfl

theorem replicate_getD {α : Type} (a d : α) :
    ∀ (n j : ℕ), (List.replicate n a).getD j d = if j < n then a else d := by
  intro n
  induction n with
  | zero => intro j; simp
  | succ m ih =>
    intro j
    cases j with
    | zero => simp
    | succ jj =>
      rw [List.replicate, List.getD_cons_succ, ih jj]
      simp [Nat.succ_lt_succ_iff]

theorem adaLNApply_zero (L : CondBasicLayer) (n k : ℕ)
    (hw : L.adaLN_weight = List.replicate n (List.replicate k 0))
    (hb : L.adaLN_bias = List.replicate n 0) (ce : Tensor) (i : ℕ) :
    (adaLNApply L ce).data i = 0 := by
  have hbias : ∀ j, (List.replicate n (0 : ℤ)).getD j 0 = 0 := by
    intro j
    rw [replicate_getD]
    split <;> rfl
  have hwrow : ∀ j kk,
      ((List.replicate n (List.replicate k (0 : ℤ))).getD j []).getD kk 0 = 0 := by
    intro j kk
    rw [replicate_getD]
    split
    · rw [replicate_getD]
      split <;> rfl
    · rfl
  simp only [adaLNApply, hw, hb]
  rw [hbias, add_zero]
  refine List.sum_eq_zero fun q hq => ?_
  obtain ⟨kk, -, rfl⟩ := List.mem_map.mp hq
  rw [hwrow, zero_mul]

theorem chunkDim1_six_of_width (t : Tensor) (B d : ℕ) (hd : 1 ≤ d)
    (hsh : t.shape = [B, 6 * d]) : (chunkDim1 6 t).length = 6 := by
  have hc : (6 * d + 6 - 1) / 6 = d := by omega
  have hn : (6 * d + d - 1) / d = 6 := by
    have h1 : 6 * d + d - 1 = d * 6 + (d - 1) := by omega
    rw [h1, Nat.mul_add_div hd, Nat.div_eq_of_lt (by omega)]
  simp only [chunkDim1, hsh, List.length_map, List.length_range,
    List.getD_cons_succ, List.getD_cons_zero]
  rw [hc, if_neg (by omega)]
  exact hn

theorem chunkDim1_getD_data_zero (t : Tensor) (ht : ∀ i, t.data i = 0)
    (k j i : ℕ) : ((chunkDim1 k t).getD j Tensor.default).data i = 0 := by
  simp only [chunkDim1]
  split
  · rfl
  · rw [range_map_getD]
    split
    · exact ht _
    · rfl

theorem forwardBody_zero_cond (blk : EarthSpecificBlock) (x : Tensor)
    (cs : List Tensor) (es : List ℕ) (roll : Bool)
    (hcs : ∀ j i, (cs.getD j Tensor.default).data i = 0)
    (hdp : ∀ t : Tensor, (∀ i, t.data i = 0) →
      ∀ i, (blk.prims.drop_path t).data i = 0) :
    blk.forwardBody x (some cs) es roll = x := by
  have hzmul2 : ∀ (y : Tensor) (j : ℕ),
      (gateMul (cs.getD 2 Tensor.default) y).data j = 0 := by
    intro y j
    simp only [gateMul]
    rw [hcs, zero_mul]
  have hzmul5 : ∀ (y : Tensor) (j : ℕ),
      (gateMul (cs.getD 5 Tensor.default) y).data j = 0 := by
    intro y j
    simp only [gateMul]
    rw [hcs, zero_mul]
  have hdp5 : ∀ (y : Tensor) (j : ℕ),
      (blk.prims.drop_path (gateMul (cs.getD 5 Tensor.default) y)).data j = 0 :=
    fun y j => hdp _ (hzmul5 y) j
  refine Tensor.ext' rfl fun i => ?_
  simp only [EarthSpecificBlock.forwardBody, tadd, hzmul2, hdp5, add_zero]

theorem forward_zero_cond (blk : EarthSpecificBlock)
    (hs3 : blk.shift_size.length = 3)
    (hdp : ∀ t : Tensor, (∀ i, t.data i = 0) →
      ∀ i, (blk.prims.drop_path t).data i = 0)
    (ce2 : Tensor) (h6 : (chunkDim1 6 ce2).length = 6)
    (hcz : ∀ j i, ((chunkDim1 6 ce2).getD j Tensor.default).data i = 0)
    (x : Tensor) (es : List ℕ) (roll : Bool) :
    blk.forward x es (some ce2) roll = .ok x := by
  unfold EarthSpecificBlock.forward
  simp [h6, hs3, Except.bind,
    forwardBody_zero_cond blk x (chunkDim1 6 ce2) es roll hcz hdp]

theorem forwardFrom_zero_cond (es : List ℕ) (ce2 : Tensor)
    (h6 : (chunkDim1 6 ce2).length = 6)
    (hcz : ∀ j i, ((chunkDim1 6 ce2).getD j Tensor.default).data i = 0) :
    ∀ (bs : List EarthSpecificBlock),
      (∀ blk ∈ bs, blk.shift_size.length = 3 ∧
        ∀ t : Tensor, (∀ i, t.data i = 0) →
          ∀ i, (blk.prims.drop_path t).data i = 0) →
      ∀ (k : ℕ) (x : Tensor),
        EarthSpecificLayer.forwardFrom es (some ce2) k bs x = .ok x := by
  intro bs
  induction bs with
  | nil => intro _ k x; rfl
  | cons b rest ih =>
    intro hbs k x
    obtain ⟨hb3, hbdp⟩ := hbs b (List.mem_cons_self b rest)
    show (if k % 2 == 0 then b.forward x es (some ce2) false
        else b.forward x es (some ce2) true).bind
      (EarthSpecificLayer.forwardFrom es (some ce2) (k + 1) rest) = .ok x
    have hstep : (if k % 2 == 0 then b.forward x es (some ce2) false
        else b.forward x es (some ce2) true) = .ok x := by
      cases k % 2 == 0 <;>
        simp [forward_zero_cond b hb3 hbdp ce2 h6 hcz x es]
    rw [hstep]
    exact ih (fun blk h => hbs blk (List.mem_cons_of_mem b h)) (k + 1) x

theorem mkBlocksAux_mem (ds ws : List ℕ) (ck lam ax : Bool)
    (primsOf : ℕ → BlockPrims) :
    ∀ (n k : ℕ) (bs : List EarthSpecificBlock),
      mkBlocksAux ds ws ck lam ax primsOf k n = .ok bs →
      ∀ b ∈ bs, ∃ i, mkEarthSpecificBlock ds ws ck lam ax (primsOf i) = .ok b := by
  intro n
  induction n with
  | zero =>
    intro k bs h b hb
    simp only [mkBlocksAux] at h
    injection h with h2
    subst h2
    exact absurd hb (by simp)
  | succ m ih =>
    intro k bs h b hb
    simp only [mkBlocksAux] at h
    cases h1 : mkEarthSpecificBlock ds ws ck lam ax (primsOf k) with
    | error e => rw [h1] at h; cases h
    | ok b0 =>
      rw [h1] at h
      cases h2 : mkBlocksAux ds ws ck lam ax primsOf (k + 1) m with
      | error e => rw [h2] at h; cases h
      | ok rest =>
        rw [h2] at h
        injection h with h3
        subst h3
        rcases List.mem_cons.mp hb with rfl | hmem
        · exact ⟨k, h1⟩
        · exact ih (k + 1) rest h2 b hmem

/-- C1 (amended): immediately after construction (the modulation projection is
zero-initialised), a `CondBasicLayer`'s forward pass with a conditioning
vector returns its token input unchanged: all six modulation parameters are
zero, and the zero gates null both the attention and the FFN residual
branches.  It therefore agrees with the unconditioned forward only when the
unconditioned residual contributions vanish — see the counterexample for an
input where the two differ. -/
theorem c1_zero_init_identity (depth : ℕ) (ds : List ℕ) (dim cond_dim : ℕ)
    (ws : List ℕ) (ck lam ax : Bool) (primsOf : ℕ → BlockPrims)
    (silu : ℤ → ℤ) (L : CondBasicLayer)
    (hmk : mkCondBasicLayer depth ds dim cond_dim ws ck lam ax primsOf silu =
      .ok L)
    (hdim : 1 ≤ dim) (hws : ws.length = 3)
    (hdp : ∀ blk ∈ L.blocks, ∀ t : Tensor, (∀ i, t.data i = 0) →
      ∀ i, (blk.prims.drop_path t).data i = 0)
    (x ce : Tensor) (es : List ℕ) :
    L.forward x es (some ce) = .ok x := by
  unfold mkCondBasicLayer mkEarthSpecificLayer at hmk
  cases haux : mkBlocksAux ds ws ck lam ax primsOf 0 depth with
  | error e => rw [haux] at hmk; cases hmk
  | ok bs =>
    rw [haux] at hmk
    injection hmk with hL
    subst hL
    have hz : ∀ i, (adaLNApply
        { toEarthSpecificLayer := ⟨bs⟩, silu := silu,
          adaLN_weight := List.replicate (6 * dim) (List.replicate cond_dim 0),
          adaLN_bias := List.replicate (6 * dim) 0 } ce).data i = 0 :=
      fun i => adaLNApply_zero _ (6 * dim) cond_dim rfl rfl ce i
    have hsh : (adaLNApply
        { toEarthSpecificLayer := ⟨bs⟩, silu := silu,
          adaLN_weight := List.replicate (6 * dim) (List.replicate cond_dim 0),
          adaLN_bias := List.replicate (6 * dim) 0 } ce).shape =
        [ce.shape.getD 0 0, 6 * dim] := by
      simp [adaLNApply]
    have hblocks : ∀ blk ∈ bs, blk.shift_size.length = 3 ∧
        ∀ t : Tensor, (∀ i, t.data i = 0) →
          ∀ i, (blk.prims.drop_path t).data i = 0 := by
      intro blk hbm
      obtain ⟨i, hi⟩ := mkBlocksAux_mem ds ws ck lam ax primsOf depth 0 bs haux
        blk hbm
      obtain ⟨-, hsz, -, -⟩ := mkEarthSpecificBlock_ok hi
      refine ⟨?_, hdp blk hbm⟩
      rw [hsz, shiftSizeOf, List.length_map, hws]
    exact forwardFrom_zero_cond es _
      (chunkDim1_six_of_width _ _ dim hdim hsh)
      (fun j i => chunkDim1_getD_data_zero _ hz 6 j i) bs hblocks 0 x

theorem c1_zero_init_identity_witness :
    cCondLayer.forward x1c [1, 1, 2, 2, 1] (some cv1) = .ok x1c := by
  refine c1_zero_init_identity 1 [1, 2, 2] 1 2 [1, 2, 2] false false false
    (fun _ => trivPrims) id cCondLayer rfl (by decide) (by decide) ?_ x1c cv1
    [1, 1, 2, 2, 1]
  intro blk hb t ht i
  simp only [cCondLayer, List.mem_singleton] at hb
  subst hb
  simpa [cBlockSmall, trivPrims] using ht i


/-! ### C7 shape toolkit -/

theorem reshape_shape (t : Tensor) (spec : List (Option ℕ)) :
    (t.reshape spec).shape =
      spec.map fun o => o.getD (t.shape.prod / (spec.filterMap id).prod) := rfl

theorem map_getD_some {α : Type} (l : List α) (d : α) :
    (l.map some).map (fun o => o.getD d) = l := by
  induction l with
  | nil => rfl
  | cons a l ih => simp [ih]

theorem reshape_map_some_shape (t : Tensor) (l : List ℕ) :
    (t.reshape (l.map some)).shape = l := by
  simp only [Tensor.reshape]
  exact map_getD_some l _

theorem permute_shape (t : Tensor) (p : List ℕ) :
    (t.permute p).shape = p.map fun j => t.shape.getD j 0 := rfl

theorem roll_shape (t : Tensor) (s : List ℤ) (d : List ℕ) :
    (t.roll s d).shape = t.shape := rfl

theorem pad3d_shape (t : Tensor) (p : Padding3d) :
    (t.pad3d p).shape = [t.shape.getD 0 0, t.shape.getD 1 0,
      t.shape.getD 2 0 + p.front + p.back, t.shape.getD 3 0 + p.top + p.bottom,
      t.shape.getD 4 0 + p.left + p.right] := rfl

theorem crop3_shape (t : Tensor) (p : Padding3d) :
    (t.crop3 p).shape = [t.shape.getD 0 0,
      t.shape.getD 1 0 - p.back - p.front, t.shape.getD 2 0 - p.bottom - p.top,
      t.shape.getD 3 0 - p.right - p.left, t.shape.getD 4 0] := rfl

theorem div_of_eq_mul (a k c : ℕ) (hk : 0 < k) (h : a = k * c) : a / k = c := by
  subst h
  exact Nat.mul_div_cancel_left c hk

theorem windowPartition_shape (b nz nh nw w0 w1 w2 c : ℕ)
    (hb : 0 < b) (hnz : 0 < nz) (hnh : 0 < nh) (hnw : 0 < nw)
    (h0 : 0 < w0) (h1 : 0 < w1) (h2 : 0 < w2) (hc : 0 < c)
    (x : Tensor) (hx : x.shape = [b, w0 * nz, w1 * nh, w2 * nw, c]) :
    (windowPartition w0 w1 w2 b (w0 * nz) (w1 * nh) (w2 * nw) c x).shape =
      [b * nz * nh * nw, w0 * w1 * w2, c] := by
  have e0 : w0 * nz / w0 = nz := Nat.mul_div_cancel_left nz h0
  have e1 : w1 * nh / w1 = nh := Nat.mul_div_cancel_left nh h1
  have e2 : w2 * nw / w2 = nw := Nat.mul_div_cancel_left nw h2
  have einner : b * (w0 * nz * (w1 * nh * (w2 * nw * c))) /
      (b * (nz * (w0 * (nh * (w1 * (nw * w2)))))) = c :=
    div_of_eq_mul _ _ _ (by positivity) (by ring)
  simp only [windowPartition, reshape_shape, permute_shape, hx, e0, e1, e2,
    List.filterMap_cons, List.filterMap_nil, List.map_cons, List.map_nil,
    Option.getD_some, Option.getD_none, List.prod_cons, List.prod_nil,
    List.getD_cons_zero, List.getD_cons_succ, mul_one, id_eq,
    List.cons.injEq, and_true, true_and, einner]
  exact div_of_eq_mul _ _ _ (by positivity) (by ring)

theorem windowReverse_shape (b nz nh nw w0 w1 w2 c : ℕ)
    (hb : 0 < b) (hnz : 0 < nz) (hnh : 0 < nh) (hnw : 0 < nw)
    (h0 : 0 < w0) (h1 : 0 < w1) (h2 : 0 < w2) (hc : 0 < c)
    (x : Tensor) (hx : x.shape = [b * nz * nh * nw, w0 * w1 * w2, c]) :
    (windowReverse w0 w1 w2 b (w0 * nz) (w1 * nh) (w2 * nw) x).shape =
      [b, w0 * nz, w1 * nh, w2 * nw, c] := by
  have e0 : w0 * nz / w0 = nz := Nat.mul_div_cancel_left nz h0
  have e1 : w1 * nh / w1 = nh := Nat.mul_div_cancel_left nh h1
  have e2 : w2 * nw / w2 = nw := Nat.mul_div_cancel_left nw h2
  have einner : b * nz * nh * nw * (w0 * w1 * w2 * c) /
      (b * (nz * (nh * (nw * (w0 * (w1 * w2)))))) = c :=
    div_of_eq_mul _ _ _ (by positivity) (by ring)
  simp only [windowReverse, reshape_shape, permute_shape, hx, e0, e1, e2,
    List.filterMap_cons, List.filterMap_nil, List.map_cons, List.map_nil,
    Option.getD_some, Option.getD_none, List.prod_cons, List.prod_nil,
    List.getD_cons_zero, List.getD_cons_succ, mul_one, id_eq,
    List.cons.injEq, and_true, true_and, einner]
  exact div_of_eq_mul _ _ _ (by positivity) (by ring)

theorem padAmount_dvd (n w : ℕ) (hw : 0 < w) : w ∣ (n + padAmount n w) := by
  refine Nat.dvd_of_mod_eq_zero ?_
  unfold padAmount
  rw [Nat.add_mod]
  rcases Nat.eq_zero_or_pos (n % w) with h | h
  · rw [h]
    simp
  · have hlt : n % w < w := Nat.mod_lt n hw
    have h1 : (w - n % w) % w = w - n % w := Nat.mod_eq_of_lt (by omega)
    simp only [h1]
    rw [show n % w + (w - n % w) = w from by omega, Nat.mod_self]

theorem attnStage_shape (blk : EarthSpecificBlock) (b z la lo c w0 w1 w2 : ℕ)
    (hws : blk.window_size = [w0, w1, w2])
    (hpad : blk.pad = mkPadding [z, la, lo] [w0, w1, w2])
    (hatt : ∀ t m bs, (blk.prims.attention t m bs).shape = t.shape)
    (hb : 0 < b) (hz : 0 < z) (hla : 0 < la) (hlo : 0 < lo) (hc : 0 < c)
    (h0 : 0 < w0) (h1 : 0 < w1) (h2 : 0 < w2)
    (t : Tensor) (roll : Bool) :
    (blk.attnStage t [b, z, la, lo, c] roll).shape = [b, z, la, lo, c] := by
  obtain ⟨nz, hnz⟩ := padAmount_dvd z w0 h0
  obtain ⟨nh, hnh⟩ := padAmount_dvd la w1 h1
  obtain ⟨nw, hnw⟩ := padAmount_dvd lo w2 h2
  have hnzp : 0 < nz := by
    rcases Nat.eq_zero_or_pos nz with h | h
    · rw [h, Nat.mul_zero] at hnz; omega
    · exact h
  have hnhp : 0 < nh := by
    rcases Nat.eq_zero_or_pos nh with h | h
    · rw [h, Nat.mul_zero] at hnh; omega
    · exact h
  have hnwp : 0 < nw := by
    rcases Nat.eq_zero_or_pos nw with h | h
    · rw [h, Nat.mul_zero] at hnw; omega
    · exact h
  have ez : z + padAmount z w0 / 2 + (padAmount z w0 - padAmount z w0 / 2) =
      w0 * nz := by omega
  have el : la + padAmount la w1 / 2 + (padAmount la w1 - padAmount la w1 / 2) =
      w1 * nh := by omega
  have eo : lo + padAmount lo w2 / 2 + (padAmount lo w2 - padAmount lo w2 / 2) =
      w2 * nw := by omega
  simp only [EarthSpecificBlock.attnStage, hws, hpad, List.getD_cons_zero,
    List.getD_cons_succ]
  set X := (((t.reshape ([b, z, la, lo, c].map some)).permute
      [0, 4, 1, 2, 3]).pad3d (mkPadding [z, la, lo] [w0, w1, w2])).permute
      [0, 2, 3, 4, 1] with hX
  have hXs : X.shape = [b, w0 * nz, w1 * nh, w2 * nw, c] := by
    rw [hX]
    simp only [permute_shape, pad3d_shape, reshape_shape, mkPadding,
      List.map_cons, List.map_nil, Option.getD_some, List.getD_cons_zero,
      List.getD_cons_succ, List.cons.injEq, and_true, true_and]
    exact ⟨ez, el, eo⟩
  simp only [hXs, List.getD_cons_zero, List.getD_cons_succ]
  set XR := if roll = true then
      X.roll [-(blk.shift_size.getD 0 0 : ℤ), -(blk.shift_size.getD 1 0 : ℤ),
        -(blk.shift_size.getD 2 0 : ℤ)] [1, 2, 3]
    else X with hXR
  have hXRs : XR.shape = [b, w0 * nz, w1 * nh, w2 * nw, c] := by
    rw [hXR]
    cases roll <;> simp [roll_shape, hXs]
  set PART := windowPartition w0 w1 w2 b (w0 * nz) (w1 * nh) (w2 * nw) c XR
    with hPdef
  have hPs : PART.shape = [b * nz * nh * nw, w0 * w1 * w2, c] := by
    rw [hPdef]
    exact windowPartition_shape b nz nh nw w0 w1 w2 c hb hnzp hnhp hnwp h0 h1
      h2 hc XR hXRs
  set MASK := if roll = true then
      some (blk.prims.maskGen XR [w0, w1, w2] blk.shift_size blk.lam)
    else none with hMdef
  set ATT := if blk.checkpoint_activation = true then
      checkpointCall blk.prims.attention PART MASK b (w0 * nz) (w1 * nh)
    else blk.prims.attention PART MASK b with hAdef
  have hAs : ATT.shape = [b * nz * nh * nw, w0 * w1 * w2, c] := by
    rw [hAdef]
    cases blk.checkpoint_activation <;> simp [checkpointCall, hatt, hPs]
  set R := windowReverse w0 w1 w2 b (w0 * nz) (w1 * nh) (w2 * nw) ATT
    with hRdef
  have hRs : R.shape = [b, w0 * nz, w1 * nh, w2 * nw, c] := by
    rw [hRdef]
    exact windowReverse_shape b nz nh nw w0 w1 w2 c hb hnzp hnhp hnwp h0 h1 h2
      hc ATT hAs
  have hUs : (if roll = true then
      R.roll [(blk.shift_size.getD 0 0 : ℤ), (blk.shift_size.getD 1 0 : ℤ),
        (blk.shift_size.getD 2 0 : ℤ)] [1, 2, 3] else R).shape =
      [b, w0 * nz, w1 * nh, w2 * nw, c] := by
    cases roll <;> simp [roll_shape, hRs]
  simp only [crop3_shape, hUs, mkPadding, List.getD_cons_zero,
    List.getD_cons_succ, List.cons.injEq, and_true, true_and]
  refine ⟨?_, ?_, ?_⟩ <;> omega

theorem forward_none_shape (blk : EarthSpecificBlock)
    (hs3 : blk.shift_size.length = 3) (x : Tensor) (es : List ℕ)
    (roll : Bool) :
    (blk.forward x es none roll).map Tensor.shape = .ok x.shape := by
  unfold EarthSpecificBlock.forward
  simp only [hs3, Except.bind]
  cases hax : blk.prims.axialOps <;>
    simp [EarthSpecificBlock.forwardBody, hax, tadd, Except.map]

theorem forwardFrom_none_shape (es : List ℕ) :
    ∀ (bs : List EarthSpecificBlock),
      (∀ blk ∈ bs, blk.shift_size.length = 3) →
      ∀ (k : ℕ) (x : Tensor),
        (EarthSpecificLayer.forwardFrom es none k bs x).map Tensor.shape =
          .ok x.shape := by
  intro bs
  induction bs with
  | nil => intro _ k x; rfl
  | cons b rest ih =>
    intro hbs k x
    have hb3 := hbs b (List.mem_cons_self b rest)
    have hrest := fun blk h => hbs blk (List.mem_cons_of_mem b h)
    show ((if k % 2 == 0 then b.forward x es none false
        else b.forward x es none true).bind
      (EarthSpecificLayer.forwardFrom es none (k + 1) rest)).map Tensor.shape =
      .ok x.shape
    have hone : ∀ fl : Bool, ((b.forward x es none fl).bind
        (EarthSpecificLayer.forwardFrom es none (k + 1) rest)).map
          Tensor.shape = .ok x.shape := by
      intro fl
      have hf := forward_none_shape b hb3 x es fl
      cases hres : b.forward x es none fl with
      | error e => rw [hres] at hf; cases hf
      | ok y =>
        rw [hres] at hf
        have hy : y.shape = x.shape := by
          simpa [Except.map] using hf
        show (EarthSpecificLayer.forwardFrom es none (k + 1) rest y).map
          Tensor.shape = .ok x.shape
        rw [← hy]
        exact ih hrest (k + 1) y
    cases k % 2 == 0 <;> simpa using hone _

/-- C7: on a layer whose blocks share an accepted positive window geometry and
the padding descriptor of the embedding volume, and whose attention
collaborator is shape-preserving, (i) every block's attention stage maps any
token tensor back to the `(b, z, lat, lon, c)` embedding volume, and (ii) the
layer's forward pass maps a flattened `(b, z*lat*lon, c)` token tensor to a
tensor of the same flattened shape. -/
theorem c7_shape_preservation (L : EarthSpecificLayer)
    (b z la lo c w0 w1 w2 : ℕ)
    (hblk : ∀ blk ∈ L.blocks, blk.window_size = [w0, w1, w2] ∧
      blk.pad = mkPadding [z, la, lo] [w0, w1, w2] ∧
      blk.shift_size.length = 3 ∧
      ∀ t m bs, (blk.prims.attention t m bs).shape = t.shape)
    (hb : 0 < b) (hz : 0 < z) (hla : 0 < la) (hlo : 0 < lo) (hc : 0 < c)
    (h0 : 0 < w0) (h1 : 0 < w1) (h2 : 0 < w2)
    (x : Tensor) (hx : x.shape = [b, z * la * lo, c]) :
    (∀ blk ∈ L.blocks, ∀ (t : Tensor) (roll : Bool),
      (blk.attnStage t [b, z, la, lo, c] roll).shape = [b, z, la, lo, c]) ∧
    (L.forward x [b, z, la, lo, c] none).map Tensor.shape =
      .ok [b, z * la * lo, c] := by
  constructor
  · intro blk hm t roll
    obtain ⟨hws, hpad, -, hatt⟩ := hblk blk hm
    exact attnStage_shape blk b z la lo c w0 w1 w2 hws hpad hatt hb hz hla hlo
      hc h0 h1 h2 t roll
  · rw [← hx]
    exact forwardFrom_none_shape [b, z, la, lo, c] L.blocks
      (fun blk h => (hblk blk h).2.2.1) 0 x

theorem c7_shape_preservation_witness :
    (∀ blk ∈ cLayer7.blocks, ∀ (t : Tensor) (roll : Bool),
      (blk.attnStage t [1, 8, 36, 72, 96] roll).shape = [1, 8, 36, 72, 96]) ∧
    (cLayer7.forward (constTensor [1, 8 * 36 * 72, 96] 0) [1, 8, 36, 72, 96]
        none).map Tensor.shape = .ok [1, 8 * 36 * 72, 96] := by
  refine c7_shape_preservation cLayer7 1 8 36 72 96 2 6 12 ?_ (by decide)
    (by decide) (by decide) (by decide) (by decide) (by decide) (by decide)
    (by decide) (constTensor [1, 8 * 36 * 72, 96] 0) rfl
  intro blk hm
  simp only [cLayer7, List.mem_cons, List.not_mem_nil, or_false, or_self] at hm
  subst hm
  exact ⟨rfl, rfl, rfl, fun t m bs => rfl⟩

end ArchesWeather
